import Mathlib

/-!
# Verification of the BudgetTrack backend

Shallow Lean embedding of `app/main.py`: the two persisted entities
(`Expense`, `Budget`), the CRUD / upsert / aggregation handlers, and a
step relation over storage states.  Amount columns (`Float` in the
source) are modelled as rationals; `DateTime` values as natural-number
timestamps; SQLAlchemy sessions become explicit state passing, with a
failed request leaving the state unchanged (the session is closed
without commit, rolling the write back).

The `Budget` table declares `category = Column(String, unique=True)`:
a storage-level uniqueness constraint on `category` alone.  The model
enforces it at insert time (`create_budget` returns `integrityError`
when a row with the same category already exists), exactly where SQLite
would reject the INSERT issued by the commit in the handler.
-/

namespace BudgetTrack

/-- The `expenses` table row (`class Expense(Base)` in `main.py`). -/
structure Expense where
  id : Nat
  title : String
  amount : ℚ
  category : String
  description : Option String
  date : Nat
deriving Repr, DecidableEq

/-- The `budgets` table row (`class Budget(Base)` in `main.py`). -/
structure Budget where
  id : Nat
  category : String
  amount : ℚ
  month : String
  year : Int
deriving Repr, DecidableEq

/-- Request payload `ExpenseCreate` (pydantic): `description` defaults
to `None` when omitted, so an omitted field arrives as `none`. -/
structure ExpenseCreate where
  title : String
  amount : ℚ
  category : String
  description : Option String
deriving Repr, DecidableEq

/-- Request payload `BudgetCreate` (pydantic). -/
structure BudgetCreate where
  category : String
  amount : ℚ
  month : String
  year : Int
deriving Repr, DecidableEq

/-- Errors a handler can surface: the 404 `HTTPException`s raised in
`main.py`, and the storage `IntegrityError` SQLite raises when a commit
violates the declared `unique=True` constraint on `budgets.category`. -/
inductive ApiError where
  | notFound (detail : String)
  | integrityError
deriving Repr, DecidableEq

/-- The storage state: the two tables plus the autoincrement counters
SQLite keeps for their integer primary keys. -/
structure DB where
  expenses : List Expense
  nextExpenseId : Nat
  budgets : List Budget
  nextBudgetId : Nat
deriving Repr, DecidableEq

/-- Freshly created database (SQLite rowids start at 1). -/
def initDB : DB := ⟨[], 1, [], 1⟩

/-- Model of the SQLAlchemy in-place mutation of the first row matching a filter:
apply `f` to the first element satisfying `p`, keep the rest. -/
def updateFirst (p : α → Bool) (f : α → α) : List α → List α
  | [] => []
  | x :: xs => if p x then f x :: xs else x :: updateFirst p f xs

/-! ## Expense endpoints -/

/-- The row built by `create_expense` from its payload: storage assigns
the id, `date` defaults to the current time. -/
def newExpense (db : DB) (p : ExpenseCreate) (now : Nat) : Expense :=
  ⟨db.nextExpenseId, p.title, p.amount, p.category, p.description, now⟩

/-- Handler for POST /api/expenses (`create_expense`): build a row from
the payload, persist it, and return the stored row. -/
def create_expense (db : DB) (p : ExpenseCreate) (now : Nat) : Expense × DB :=
  (newExpense db p now,
    { db with expenses := db.expenses ++ [newExpense db p now],
              nextExpenseId := db.nextExpenseId + 1 })

/-- Handler for GET /api/expenses (`get_expenses`): storage-native order,
`OFFSET skip LIMIT limit`. -/
def get_expenses (db : DB) (skip limit : Nat) : List Expense :=
  (db.expenses.drop skip).take limit

/-- Handler for GET /api/expenses/id (`get_expense`): first row matching the
id, 404 when none. -/
def get_expense (db : DB) (eid : Nat) : Except ApiError Expense :=
  match db.expenses.find? (fun e => e.id == eid) with
  | some e => .ok e
  | none => .error (.notFound "Expense not found")

/-- The field assignment loop of `update_expense`: every key of
`ExpenseCreate.dict()` (`title`, `amount`, `category`, `description`)
is written onto the stored row; `id` and `date` are not in the payload
and stay as they were. -/
def applyUpdate (e : Expense) (p : ExpenseCreate) : Expense :=
  { e with title := p.title, amount := p.amount,
           category := p.category, description := p.description }

/-- Handler for PUT /api/expenses/id (`update_expense`): find the row, 404 when
absent, otherwise overwrite all payload fields and return the row. -/
def update_expense (db : DB) (eid : Nat) (p : ExpenseCreate) :
    Except ApiError (Expense × DB) :=
  match db.expenses.find? (fun e => e.id == eid) with
  | none => .error (.notFound "Expense not found")
  | some e =>
      let es := updateFirst (fun e => e.id == eid) (fun e => applyUpdate e p) db.expenses
      .ok (applyUpdate e p, { db with expenses := es })

/-- Handler for DELETE /api/expenses/id (`delete_expense`): find the row, 404
when absent, otherwise remove it and return the confirmation. -/
def delete_expense (db : DB) (eid : Nat) :
    Except ApiError (String × DB) :=
  match db.expenses.find? (fun e => e.id == eid) with
  | none => .error (.notFound "Expense not found")
  | some _ =>
      .ok ("Expense deleted successfully",
        { db with expenses := db.expenses.eraseP (fun e => e.id == eid) })

/-! ## Budget endpoints -/

/-- The three-field filter of the budget upsert lookup. -/
def budgetKeyMatch (p : BudgetCreate) (b : Budget) : Bool :=
  b.category == p.category && b.month == p.month && b.year == p.year

/-- The state after the found branch of the upsert: the `amount` of the
first row matching the three-field filter is overwritten in place. -/
def upsertFoundState (db : DB) (p : BudgetCreate) : DB :=
  let bs := updateFirst (budgetKeyMatch p) (fun b => { b with amount := p.amount }) db.budgets
  { db with budgets := bs }

/-- The row inserted by the not-found branch of the upsert: storage
assigns the id, all other fields come from the payload. -/
def newBudget (db : DB) (p : BudgetCreate) : Budget :=
  ⟨db.nextBudgetId, p.category, p.amount, p.month, p.year⟩

/-- The state after the not-found branch of the upsert inserts its row. -/
def upsertInsertState (db : DB) (p : BudgetCreate) : DB :=
  { db with budgets := db.budgets ++ [newBudget db p],
            nextBudgetId := db.nextBudgetId + 1 }

/-- Handler for POST /api/budgets (`create_budget`): look up a row matching all
of (category, month, year); if found overwrite its `amount` and return
it; otherwise insert a new row — which SQLite rejects with an
`IntegrityError` when any existing row already carries the same
`category`, because of the `unique=True` constraint on that column. -/
def create_budget (db : DB) (p : BudgetCreate) :
    Except ApiError (Budget × DB) :=
  match db.budgets.find? (budgetKeyMatch p) with
  | some b =>
      .ok ({ b with amount := p.amount }, upsertFoundState db p)
  | none =>
      if db.budgets.any (fun b => b.category == p.category) then
        .error .integrityError
      else
        .ok (newBudget db p, upsertInsertState db p)

/-- Handler for GET /api/budgets (`get_budgets`): all rows, storage-native order. -/
def get_budgets (db : DB) : List Budget :=
  db.budgets

/-! ## Analytics endpoint -/

/-- One row of the `GROUP BY category` aggregation. -/
structure CategoryTotal where
  category : String
  amount : ℚ
deriving Repr, DecidableEq

/-- The response shape of `GET /api/analytics/summary`. -/
structure Summary where
  total_expenses : ℚ
  total_budget : ℚ
  remaining_budget : ℚ
  category_expenses : List CategoryTotal
  recent_expenses : List Expense
deriving Repr, DecidableEq

/-- Model of SELECT category, SUM(amount) FROM expenses GROUP BY category:
one row per distinct category, carrying the sum of `amount` over the
rows of that category. -/
def categoryTotals (es : List Expense) : List CategoryTotal :=
  ((es.map (·.category)).dedup).map
    (fun c => ⟨c, ((es.filter (fun e => e.category == c)).map (·.amount)).sum⟩)

/-- Comparison used by ORDER BY date DESC. -/
def dateGe (a b : Expense) : Prop := b.date ≤ a.date

instance : DecidableRel dateGe :=
  fun a b => inferInstanceAs (Decidable (b.date ≤ a.date))

instance : IsTotal Expense dateGe :=
  ⟨fun a b => (Nat.le_total b.date a.date).imp id id⟩

instance : IsTrans Expense dateGe :=
  ⟨fun _ _ _ hab hbc => Nat.le_trans hbc hab⟩

/-- Handler for GET /api/analytics/summary (`get_summary`): the two
`COALESCE(SUM(amount), 0)` totals, their difference, the per-category
sums, and the first five rows of `ORDER BY date DESC`. -/
def get_summary (db : DB) : Summary :=
  let total_expenses := (db.expenses.map (·.amount)).sum
  let total_budget := (db.budgets.map (·.amount)).sum
  { total_expenses := total_expenses
    total_budget := total_budget
    remaining_budget := total_budget - total_expenses
    category_expenses := categoryTotals db.expenses
    recent_expenses := ((db.expenses.insertionSort dateGe).take 5) }

/-! ## Requests as a step relation -/

/-- One inbound request. -/
inductive Op where
  | createExpense (p : ExpenseCreate) (now : Nat)
  | listExpenses (skip limit : Nat)
  | getExpense (eid : Nat)
  | updateExpense (eid : Nat) (p : ExpenseCreate)
  | deleteExpense (eid : Nat)
  | upsertBudget (p : BudgetCreate)
  | listBudgets
  | summary
deriving Repr, DecidableEq

/-- The storage state after serving one request.  A failed request
(404 or integrity error) leaves the state unchanged: the handler either
wrote nothing, or its commit was rejected and the session teardown in
`get_db` rolls the write back. -/
def step (db : DB) : Op → DB
  | .createExpense p now => (create_expense db p now).2
  | .listExpenses _ _ => db
  | .getExpense _ => db
  | .updateExpense eid p =>
      match update_expense db eid p with
      | .ok (_, db') => db'
      | .error _ => db
  | .deleteExpense eid =>
      match delete_expense db eid with
      | .ok (_, db') => db'
      | .error _ => db
  | .upsertBudget p =>
      match create_budget db p with
      | .ok (_, db') => db'
      | .error _ => db
  | .listBudgets => db
  | .summary => db

/-- A storage state the system can actually be in: produced from the
fresh database by some sequence of requests. -/
def Reachable (db : DB) : Prop :=
  ∃ ops : List Op, db = ops.foldl step initDB

/-- The logical upsert key of a budget row. -/
def budgetKey (b : Budget) : String × String × Int :=
  (b.category, b.month, b.year)

/-! ## Helper lemmas -/

theorem find?_updateFirst (p : α → Bool) (f : α → α)
    (hf : ∀ x, p x = true → p (f x) = true) :
    ∀ l : List α, (updateFirst p f l).find? p = (l.find? p).map f := by
  intro l
  induction l with
  | nil => rfl
  | cons x xs ih =>
      cases hx : p x with
      | true => simp [updateFirst, hx, List.find?_cons_of_pos, hf x hx]
      | false => simp [updateFirst, hx, List.find?_cons_of_neg, ih]

theorem map_updateFirst (p : α → Bool) (f : α → α) (g : α → β)
    (hg : ∀ x, p x = true → g (f x) = g x) :
    ∀ l : List α, (updateFirst p f l).map g = l.map g := by
  intro l
  induction l with
  | nil => rfl
  | cons x xs ih =>
      by_cases hx : p x = true
      · simp [updateFirst, hx, hg x hx]
      · simp [updateFirst, hx, ih]

theorem countP_le_one_of_nodup_map (k : α → β) (q : α → Bool)
    (hq : ∀ x y, q x = true → q y = true → k x = k y) :
    ∀ l : List α, (l.map k).Nodup → l.countP q ≤ 1 := by
  intro l
  induction l with
  | nil => intro; simp [List.countP_nil]
  | cons x xs ih =>
      intro h
      rw [List.map_cons, List.nodup_cons] at h
      by_cases hx : q x = true
      · rw [List.countP_cons_of_pos _ _ hx]
        have hzero : xs.countP q = 0 := by
          rw [List.countP_eq_zero]
          intro y hy hqy
          exact h.1 (by
            rw [hq x y hx hqy]
            exact List.mem_map_of_mem k hy)
        omega
      · rw [List.countP_cons_of_neg _ _ (by simp [hx])]
        exact ih h.2

theorem budgetKeyMatch_iff (p : BudgetCreate) (b : Budget) :
    budgetKeyMatch p b = true ↔ budgetKey b = (p.category, p.month, p.year) := by
  simp [budgetKeyMatch, budgetKey, Prod.ext_iff, and_assoc]

/-! ## Expense operation lemmas -/

theorem get_expense_eq_ok (db : DB) (eid : Nat) (e₀ : Expense) :
    get_expense db eid = .ok e₀ ↔
      db.expenses.find? (fun e => e.id == eid) = some e₀ := by
  unfold get_expense
  cases h : db.expenses.find? (fun e => e.id == eid) <;> simp

theorem update_then_get_aux (db : DB) (eid : Nat) (p : ExpenseCreate)
    (e₀ : Expense) (h : get_expense db eid = .ok e₀) :
    ∃ db', update_expense db eid p = .ok (applyUpdate e₀ p, db') ∧
      get_expense db' eid = .ok (applyUpdate e₀ p) ∧
      db'.budgets = db.budgets := by
  rw [get_expense_eq_ok] at h
  let es' := updateFirst (fun e => e.id == eid) (fun e => applyUpdate e p) db.expenses
  refine ⟨{ db with expenses := es' }, ?_, ?_, rfl⟩
  · simp [update_expense, h]
  · rw [get_expense_eq_ok]
    show (updateFirst (fun e => e.id == eid) (fun e => applyUpdate e p)
        db.expenses).find? (fun e => e.id == eid) = _
    rw [find?_updateFirst (fun e => e.id == eid) (fun e => applyUpdate e p)
      (fun x hx => hx), h]
    rfl

/-! ## Claim theorems: expense CRUD -/

/-- C4: update followed by get on the same id returns a record whose
title, amount, category and description are exactly the values supplied
to the update, while the date and id are unchanged from the record that
was stored before the update. -/
theorem update_then_get (db : DB) (eid : Nat) (p : ExpenseCreate) (e₀ : Expense)
    (h : get_expense db eid = .ok e₀) :
    ∃ e' db', update_expense db eid p = .ok (e', db') ∧
      get_expense db' eid = .ok e' ∧
      e'.title = p.title ∧ e'.amount = p.amount ∧ e'.category = p.category ∧
      e'.description = p.description ∧ e'.date = e₀.date ∧ e'.id = e₀.id := by
  obtain ⟨db', h1, h2, -⟩ := update_then_get_aux db eid p e₀ h
  exact ⟨applyUpdate e₀ p, db', h1, h2, rfl, rfl, rfl, rfl, rfl, rfl⟩

/-- Concrete instance of C4: update expense 1 of a one-row store. -/
theorem update_then_get_witness :
    ∃ e' db', update_expense ⟨[⟨1, "t", 5, "Food", none, 99⟩], 2, [], 1⟩ 1
        ⟨"t2", 7, "Fun", some "d2"⟩ = .ok (e', db') ∧
      get_expense db' 1 = .ok e' ∧
      e'.title = "t2" ∧ e'.amount = 7 ∧ e'.category = "Fun" ∧
      e'.description = some "d2" ∧ e'.date = 99 ∧ e'.id = 1 :=
  update_then_get ⟨[⟨1, "t", 5, "Food", none, 99⟩], 2, [], 1⟩ 1
    ⟨"t2", 7, "Fun", some "d2"⟩ ⟨1, "t", 5, "Food", none, 99⟩ rfl

/-- C10: updating a stored expense whose description is non-null with a
payload that omits the description (pydantic default `None`) stores a
null description: the omitted optional field participates in the
full-record replacement instead of preserving the old value. -/
theorem update_clears_omitted_description (db : DB) (eid : Nat)
    (t : String) (a : ℚ) (c : String) (e₀ : Expense) (d : String)
    (h : get_expense db eid = .ok e₀) (_hd : e₀.description = some d) :
    ∃ e' db', update_expense db eid ⟨t, a, c, none⟩ = .ok (e', db') ∧
      get_expense db' eid = .ok e' ∧ e'.description = none := by
  obtain ⟨db', h1, h2, -⟩ := update_then_get_aux db eid ⟨t, a, c, none⟩ e₀ h
  exact ⟨applyUpdate e₀ ⟨t, a, c, none⟩, db', h1, h2, rfl⟩

/-- Concrete instance of C10: the stored description "keep me" is
dropped by an update that omits the field. -/
theorem update_clears_omitted_description_witness :
    ∃ e' db', update_expense ⟨[⟨1, "t", 5, "Food", some "keep me", 99⟩], 2, [], 1⟩ 1
        ⟨"t2", 7, "Fun", none⟩ = .ok (e', db') ∧
      get_expense db' 1 = .ok e' ∧ e'.description = none :=
  update_clears_omitted_description ⟨[⟨1, "t", 5, "Food", some "keep me", 99⟩], 2, [], 1⟩
    1 "t2" 7 "Fun" ⟨1, "t", 5, "Food", some "keep me", 99⟩ "keep me" rfl rfl

/-- C5: get, update and delete fail with the 404 NotFound error exactly
when no stored expense carries the requested id, and a request that
fails this way leaves the storage state unchanged. -/
theorem expense_notFound_spec (db : DB) (eid : Nat) (p : ExpenseCreate) :
    (get_expense db eid = .error (.notFound "Expense not found") ↔
      ∀ e ∈ db.expenses, e.id ≠ eid) ∧
    (update_expense db eid p = .error (.notFound "Expense not found") ↔
      ∀ e ∈ db.expenses, e.id ≠ eid) ∧
    (delete_expense db eid = .error (.notFound "Expense not found") ↔
      ∀ e ∈ db.expenses, e.id ≠ eid) ∧
    step db (.getExpense eid) = db ∧
    ((∀ e ∈ db.expenses, e.id ≠ eid) →
      step db (.updateExpense eid p) = db ∧ step db (.deleteExpense eid) = db) := by
  cases hfind : db.expenses.find? (fun e => e.id == eid) with
  | none =>
      have hr : ∀ e ∈ db.expenses, e.id ≠ eid := by
        have := List.find?_eq_none.mp hfind
        simpa using this
      refine ⟨?_, ?_, ?_, rfl, fun _ => ⟨?_, ?_⟩⟩
      · exact iff_of_true (by simp [get_expense, hfind]) hr
      · exact iff_of_true (by simp [update_expense, hfind]) hr
      · exact iff_of_true (by simp [delete_expense, hfind]) hr
      · simp [step, update_expense, hfind]
      · simp [step, delete_expense, hfind]
  | some e =>
      have he : e ∈ db.expenses := List.mem_of_find?_eq_some hfind
      have hid : e.id = eid := by
        have := List.find?_some hfind
        simpa using this
      have hr : ¬ ∀ x ∈ db.expenses, x.id ≠ eid := fun h => h e he hid
      refine ⟨?_, ?_, ?_, rfl, fun hc => absurd hc hr⟩
      · exact iff_of_false (by simp [get_expense, hfind]) hr
      · exact iff_of_false (by simp [update_expense, hfind]) hr
      · exact iff_of_false (by simp [delete_expense, hfind]) hr

/-- Concrete instance of C5: id 7 is absent from a one-row store. -/
theorem expense_notFound_spec_witness :
    (get_expense ⟨[⟨1, "t", 5, "Food", none, 99⟩], 2, [], 1⟩ 7 =
      .error (.notFound "Expense not found") ↔
      ∀ e ∈ (⟨[⟨1, "t", 5, "Food", none, 99⟩], 2, [], 1⟩ : DB).expenses, e.id ≠ 7) ∧
    (update_expense ⟨[⟨1, "t", 5, "Food", none, 99⟩], 2, [], 1⟩ 7 ⟨"x", 0, "y", none⟩ =
      .error (.notFound "Expense not found") ↔
      ∀ e ∈ (⟨[⟨1, "t", 5, "Food", none, 99⟩], 2, [], 1⟩ : DB).expenses, e.id ≠ 7) ∧
    (delete_expense ⟨[⟨1, "t", 5, "Food", none, 99⟩], 2, [], 1⟩ 7 =
      .error (.notFound "Expense not found") ↔
      ∀ e ∈ (⟨[⟨1, "t", 5, "Food", none, 99⟩], 2, [], 1⟩ : DB).expenses, e.id ≠ 7) ∧
    step ⟨[⟨1, "t", 5, "Food", none, 99⟩], 2, [], 1⟩ (.getExpense 7) =
      ⟨[⟨1, "t", 5, "Food", none, 99⟩], 2, [], 1⟩ ∧
    ((∀ e ∈ (⟨[⟨1, "t", 5, "Food", none, 99⟩], 2, [], 1⟩ : DB).expenses, e.id ≠ 7) →
      step ⟨[⟨1, "t", 5, "Food", none, 99⟩], 2, [], 1⟩ (.updateExpense 7 ⟨"x", 0, "y", none⟩) =
        ⟨[⟨1, "t", 5, "Food", none, 99⟩], 2, [], 1⟩ ∧
      step ⟨[⟨1, "t", 5, "Food", none, 99⟩], 2, [], 1⟩ (.deleteExpense 7) =
        ⟨[⟨1, "t", 5, "Food", none, 99⟩], 2, [], 1⟩) :=
  expense_notFound_spec ⟨[⟨1, "t", 5, "Food", none, 99⟩], 2, [], 1⟩ 7 ⟨"x", 0, "y", none⟩

/-- C6: creating an expense and getting the returned id yields exactly
the created record, and deleting that id then getting it fails with
NotFound.  The freshness hypothesis (every stored id is below the
autoincrement counter) holds in every state storage itself produced. -/
theorem create_get_delete (db : DB) (p : ExpenseCreate) (now : Nat)
    (hfresh : ∀ e ∈ db.expenses, e.id < db.nextExpenseId) :
    get_expense (create_expense db p now).2 (create_expense db p now).1.id =
      .ok (create_expense db p now).1 ∧
    ∃ db'', delete_expense (create_expense db p now).2 (create_expense db p now).1.id =
        .ok ("Expense deleted successfully", db'') ∧
      get_expense db'' (create_expense db p now).1.id =
        .error (.notFound "Expense not found") := by
  have hnone : ∀ x ∈ db.expenses, ¬(x.id == db.nextExpenseId) = true := by
    intro x hx
    simpa using Nat.ne_of_lt (hfresh x hx)
  have hfind : db.expenses.find? (fun x => x.id == db.nextExpenseId) = none :=
    List.find?_eq_none.mpr hnone
  have hid : (newExpense db p now).id = db.nextExpenseId := rfl
  constructor
  · simp [get_expense, create_expense, List.find?_append, hfind, hid]
  · refine ⟨{ db with nextExpenseId := db.nextExpenseId + 1 }, ?_, ?_⟩
    · have herase : (db.expenses ++ [newExpense db p now]).eraseP
          (fun x => x.id == db.nextExpenseId) = db.expenses := by
        rw [List.eraseP_append_right _ hnone]
        simp [hid]
      simp [delete_expense, create_expense, List.find?_append, hfind, hid, herase]
    · simp [get_expense, create_expense, hfind, hid]

/-- Concrete instance of C6 starting from a one-row store. -/
theorem create_get_delete_witness :
    get_expense (create_expense ⟨[⟨1, "t", 5, "Food", none, 99⟩], 2, [], 1⟩
        ⟨"new", 8, "Fun", some "d"⟩ 120).2
      (create_expense ⟨[⟨1, "t", 5, "Food", none, 99⟩], 2, [], 1⟩
        ⟨"new", 8, "Fun", some "d"⟩ 120).1.id =
      .ok (create_expense ⟨[⟨1, "t", 5, "Food", none, 99⟩], 2, [], 1⟩
        ⟨"new", 8, "Fun", some "d"⟩ 120).1 ∧
    ∃ db'', delete_expense (create_expense ⟨[⟨1, "t", 5, "Food", none, 99⟩], 2, [], 1⟩
          ⟨"new", 8, "Fun", some "d"⟩ 120).2
        (create_expense ⟨[⟨1, "t", 5, "Food", none, 99⟩], 2, [], 1⟩
          ⟨"new", 8, "Fun", some "d"⟩ 120).1.id =
        .ok ("Expense deleted successfully", db'') ∧
      get_expense db'' (create_expense ⟨[⟨1, "t", 5, "Food", none, 99⟩], 2, [], 1⟩
          ⟨"new", 8, "Fun", some "d"⟩ 120).1.id =
        .error (.notFound "Expense not found") :=
  create_get_delete ⟨[⟨1, "t", 5, "Food", none, 99⟩], 2, [], 1⟩
    ⟨"new", 8, "Fun", some "d"⟩ 120 (by decide)

/-! ## Claim theorems: analytics summary -/

/-- C7: the summary totals are the sums of `amount` over the stored
expense rows and over the stored budget rows (0 when the table is
empty), and remaining budget is their difference, unclamped. -/
theorem summary_totals (db : DB) :
    (get_summary db).total_expenses = (db.expenses.map (·.amount)).sum ∧
    (db.expenses = [] → (get_summary db).total_expenses = 0) ∧
    (get_summary db).total_budget = (db.budgets.map (·.amount)).sum ∧
    (db.budgets = [] → (get_summary db).total_budget = 0) ∧
    (get_summary db).remaining_budget =
      (get_summary db).total_budget - (get_summary db).total_expenses := by
  refine ⟨rfl, ?_, rfl, ?_, rfl⟩
  · intro h
    simp [get_summary, h]
  · intro h
    simp [get_summary, h]

/-- Concrete instance of C7: with one 50-unit expense and no budgets
the remaining budget is the negative value -50. -/
theorem summary_totals_witness :
    (get_summary initDB).total_expenses = 0 ∧
    (get_summary ⟨[⟨1, "a", 50, "Food", none, 10⟩], 2, [], 1⟩).remaining_budget =
      (get_summary ⟨[⟨1, "a", 50, "Food", none, 10⟩], 2, [], 1⟩).total_budget -
        (get_summary ⟨[⟨1, "a", 50, "Food", none, 10⟩], 2, [], 1⟩).total_expenses ∧
    (get_summary ⟨[⟨1, "a", 50, "Food", none, 10⟩], 2, [], 1⟩).remaining_budget = -50 :=
  ⟨(summary_totals initDB).2.1 rfl,
   (summary_totals ⟨[⟨1, "a", 50, "Food", none, 10⟩], 2, [], 1⟩).2.2.2.2,
   by norm_num [get_summary]⟩

/-- C8: the per-category summary rows carry pairwise distinct
categories; a row appears exactly for the categories present among the
stored expenses, carrying the sum of `amount` over the rows of that
category (absent categories yield no row). -/
theorem category_expenses_spec (db : DB) :
    ((get_summary db).category_expenses.map (·.category)).Nodup ∧
    ∀ ct, ct ∈ (get_summary db).category_expenses ↔
      (ct.category ∈ db.expenses.map (·.category) ∧
       ct.amount = ((db.expenses.filter
         (fun e => e.category == ct.category)).map (·.amount)).sum) := by
  constructor
  · have h : ((get_summary db).category_expenses.map (·.category)) =
        (db.expenses.map (·.category)).dedup := by
      show ((categoryTotals db.expenses).map (·.category)) = _
      simp [categoryTotals, List.map_map, Function.comp_def]
    rw [h]
    exact (db.expenses.map (·.category)).nodup_dedup
  · intro ct
    show ct ∈ categoryTotals db.expenses ↔ _
    simp only [categoryTotals, List.mem_map, List.mem_dedup]
    constructor
    · rintro ⟨c, hc, rfl⟩
      exact ⟨hc, rfl⟩
    · rintro ⟨hc, ha⟩
      refine ⟨ct.category, hc, ?_⟩
      cases ct with
      | mk cc aa => simp only at ha ⊢; rw [ha]

/-- Concrete instance of C8, the scenario from the spec: expenses
(Food, 50), (Food, 30), (Transport, 20) produce exactly the rows
(Food, 80) and (Transport, 20). -/
theorem category_expenses_spec_witness :
    ((⟨"Food", 80⟩ : CategoryTotal) ∈ (get_summary ⟨[⟨1, "a", 50, "Food", none, 10⟩,
      ⟨2, "b", 30, "Food", none, 20⟩, ⟨3, "c", 20, "Transport", none, 15⟩], 4, [], 1⟩).category_expenses) ∧
    ((⟨"Transport", 20⟩ : CategoryTotal) ∈ (get_summary ⟨[⟨1, "a", 50, "Food", none, 10⟩,
      ⟨2, "b", 30, "Food", none, 20⟩, ⟨3, "c", 20, "Transport", none, 15⟩], 4, [], 1⟩).category_expenses) ∧
    ((get_summary ⟨[⟨1, "a", 50, "Food", none, 10⟩, ⟨2, "b", 30, "Food", none, 20⟩,
      ⟨3, "c", 20, "Transport", none, 15⟩], 4, [], 1⟩).category_expenses.map (·.category)).Nodup :=
  ⟨((category_expenses_spec ⟨[⟨1, "a", 50, "Food", none, 10⟩, ⟨2, "b", 30, "Food", none, 20⟩,
      ⟨3, "c", 20, "Transport", none, 15⟩], 4, [], 1⟩).2 ⟨"Food", 80⟩).mpr
      ⟨by simp, by simp +decide [List.filter_cons]; norm_num⟩,
   ((category_expenses_spec ⟨[⟨1, "a", 50, "Food", none, 10⟩, ⟨2, "b", 30, "Food", none, 20⟩,
      ⟨3, "c", 20, "Transport", none, 15⟩], 4, [], 1⟩).2 ⟨"Transport", 20⟩).mpr
      ⟨by simp, by simp +decide [List.filter_cons]⟩,
   (category_expenses_spec ⟨[⟨1, "a", 50, "Food", none, 10⟩, ⟨2, "b", 30, "Food", none, 20⟩,
      ⟨3, "c", 20, "Transport", none, 15⟩], 4, [], 1⟩).1⟩

/-- C9: the recent-expenses list is the 5 most recently dated stored
rows in descending date order — its length is `min 5` the table size,
every member is stored, it is sorted descending, every stored row
outside it dates no later than every row inside it, and with at most 5
stored rows it contains them all. -/
theorem recent_expenses_spec (db : DB) :
    (get_summary db).recent_expenses.length = min 5 db.expenses.length ∧
    (∀ x ∈ (get_summary db).recent_expenses, x ∈ db.expenses) ∧
    (get_summary db).recent_expenses.Pairwise dateGe ∧
    (∀ x ∈ (get_summary db).recent_expenses, ∀ y ∈ db.expenses,
      y ∉ (get_summary db).recent_expenses → y.date ≤ x.date) ∧
    (db.expenses.length ≤ 5 →
      ∀ y ∈ db.expenses, y ∈ (get_summary db).recent_expenses) := by
  have hre : (get_summary db).recent_expenses =
      (db.expenses.insertionSort dateGe).take 5 := rfl
  have hperm : List.Perm (db.expenses.insertionSort dateGe) db.expenses :=
    List.perm_insertionSort dateGe db.expenses
  have hsort : List.Sorted dateGe (db.expenses.insertionSort dateGe) :=
    List.sorted_insertionSort dateGe db.expenses
  refine ⟨?_, ?_, ?_, ?_, ?_⟩
  · rw [hre, List.length_take, hperm.length_eq]
  · intro x hx
    rw [hre] at hx
    exact hperm.subset (List.mem_of_mem_take hx)
  · rw [hre]
    exact hsort.sublist (List.take_sublist 5 _)
  · intro x hx y hy hyn
    rw [hre] at hx hyn
    have hys : y ∈ db.expenses.insertionSort dateGe := hperm.mem_iff.mpr hy
    rw [← List.take_append_drop 5 (db.expenses.insertionSort dateGe)] at hys hsort
    have hyd : y ∈ (db.expenses.insertionSort dateGe).drop 5 := by
      rcases List.mem_append.mp hys with h | h
      · exact absurd h hyn
      · exact h
    exact (List.pairwise_append.mp hsort).2.2 x hx y hyd
  · intro hlen y hy
    rw [hre, List.take_of_length_le (by rw [hperm.length_eq]; exact hlen)]
    exact hperm.mem_iff.mpr hy

/-- Concrete instance of C9 on a three-row store. -/
theorem recent_expenses_spec_witness :
    (get_summary ⟨[⟨1, "a", 50, "Food", none, 10⟩, ⟨2, "b", 30, "Food", none, 20⟩,
        ⟨3, "c", 20, "Transport", none, 15⟩], 4, [], 1⟩).recent_expenses.length =
      min 5 (⟨[⟨1, "a", 50, "Food", none, 10⟩, ⟨2, "b", 30, "Food", none, 20⟩,
        ⟨3, "c", 20, "Transport", none, 15⟩], 4, [], 1⟩ : DB).expenses.length ∧
    ((⟨[⟨1, "a", 50, "Food", none, 10⟩, ⟨2, "b", 30, "Food", none, 20⟩,
        ⟨3, "c", 20, "Transport", none, 15⟩], 4, [], 1⟩ : DB).expenses.length ≤ 5 →
      ∀ y ∈ (⟨[⟨1, "a", 50, "Food", none, 10⟩, ⟨2, "b", 30, "Food", none, 20⟩,
        ⟨3, "c", 20, "Transport", none, 15⟩], 4, [], 1⟩ : DB).expenses,
        y ∈ (get_summary ⟨[⟨1, "a", 50, "Food", none, 10⟩, ⟨2, "b", 30, "Food", none, 20⟩,
          ⟨3, "c", 20, "Transport", none, 15⟩], 4, [], 1⟩).recent_expenses) :=
  ⟨(recent_expenses_spec ⟨[⟨1, "a", 50, "Food", none, 10⟩, ⟨2, "b", 30, "Food", none, 20⟩,
      ⟨3, "c", 20, "Transport", none, 15⟩], 4, [], 1⟩).1,
   (recent_expenses_spec ⟨[⟨1, "a", 50, "Food", none, 10⟩, ⟨2, "b", 30, "Food", none, 20⟩,
      ⟨3, "c", 20, "Transport", none, 15⟩], 4, [], 1⟩).2.2.2.2⟩

/-! ## Budget operation lemmas -/

theorem create_budget_found (db : DB) (p : BudgetCreate) (b₀ : Budget)
    (h : db.budgets.find? (budgetKeyMatch p) = some b₀) :
    create_budget db p = .ok ({ b₀ with amount := p.amount }, upsertFoundState db p) := by
  simp [create_budget, h]

theorem create_budget_conflict (db : DB) (p : BudgetCreate)
    (hfind : db.budgets.find? (budgetKeyMatch p) = none)
    (hcat : db.budgets.any (fun b => b.category == p.category) = true) :
    create_budget db p = .error .integrityError := by
  simp [create_budget, hfind, hcat]

theorem create_budget_inserts (db : DB) (p : BudgetCreate)
    (hfind : db.budgets.find? (budgetKeyMatch p) = none)
    (hcat : db.budgets.any (fun b => b.category == p.category) = false) :
    create_budget db p = .ok (newBudget db p, upsertInsertState db p) := by
  simp [create_budget, hfind, hcat]

theorem upsertFoundState_budgets (db : DB) (p : BudgetCreate) :
    (upsertFoundState db p).budgets = updateFirst (budgetKeyMatch p)
      (fun b => { b with amount := p.amount }) db.budgets := rfl

theorem map_budgetKey_upsertFound (db : DB) (p : BudgetCreate) :
    (upsertFoundState db p).budgets.map budgetKey = db.budgets.map budgetKey := by
  rw [upsertFoundState_budgets]
  exact map_updateFirst (budgetKeyMatch p) (fun b => { b with amount := p.amount })
    budgetKey (fun x _ => rfl) db.budgets

theorem map_budgetKey_upsertInsert (db : DB) (p : BudgetCreate)
    (hfind : db.budgets.find? (budgetKeyMatch p) = none)
    (h : (db.budgets.map budgetKey).Nodup) :
    ((upsertInsertState db p).budgets.map budgetKey).Nodup := by
  show ((db.budgets ++ [newBudget db p]).map budgetKey).Nodup
  rw [List.map_append]
  refine h.append (List.nodup_singleton _) ?_
  intro k hk1 hk2
  simp only [List.map_cons, List.map_nil, List.mem_singleton] at hk2
  obtain ⟨b, hb, hkb⟩ := List.mem_map.mp hk1
  have hmatch : budgetKeyMatch p b = true := by
    rw [budgetKeyMatch_iff]
    rw [hkb, hk2]
    rfl
  exact (List.find?_eq_none.mp hfind b hb) hmatch

theorem create_budget_ok_key_nodup (db : DB) (p : BudgetCreate) (b : Budget) (db' : DB)
    (h : (db.budgets.map budgetKey).Nodup)
    (hok : create_budget db p = .ok (b, db')) :
    (db'.budgets.map budgetKey).Nodup := by
  cases hfind : db.budgets.find? (budgetKeyMatch p) with
  | some b₀ =>
      rw [create_budget_found db p b₀ hfind] at hok
      simp only [Except.ok.injEq, Prod.mk.injEq] at hok
      rw [← hok.2, map_budgetKey_upsertFound]
      exact h
  | none =>
      cases hcat : db.budgets.any (fun x => x.category == p.category) with
      | true =>
          rw [create_budget_conflict db p hfind hcat] at hok
          simp at hok
      | false =>
          rw [create_budget_inserts db p hfind hcat] at hok
          simp only [Except.ok.injEq, Prod.mk.injEq] at hok
          rw [← hok.2]
          exact map_budgetKey_upsertInsert db p hfind h

theorem update_expense_ok_budgets (db : DB) (eid : Nat) (p : ExpenseCreate)
    (e : Expense) (db' : DB) (hok : update_expense db eid p = .ok (e, db')) :
    db'.budgets = db.budgets := by
  unfold update_expense at hok
  cases hfind : db.expenses.find? (fun x => x.id == eid) with
  | none => rw [hfind] at hok; simp at hok
  | some e₀ =>
      rw [hfind] at hok
      simp only [Except.ok.injEq, Prod.mk.injEq] at hok
      rw [← hok.2]

theorem delete_expense_ok_budgets (db : DB) (eid : Nat)
    (msg : String) (db' : DB) (hok : delete_expense db eid = .ok (msg, db')) :
    db'.budgets = db.budgets := by
  unfold delete_expense at hok
  cases hfind : db.expenses.find? (fun x => x.id == eid) with
  | none => rw [hfind] at hok; simp at hok
  | some e₀ =>
      rw [hfind] at hok
      simp only [Except.ok.injEq, Prod.mk.injEq] at hok
      rw [← hok.2]

theorem step_key_nodup (db : DB) (op : Op)
    (h : (db.budgets.map budgetKey).Nodup) :
    ((step db op).budgets.map budgetKey).Nodup := by
  cases op with
  | createExpense p now => exact h
  | listExpenses s l => exact h
  | getExpense i => exact h
  | listBudgets => exact h
  | summary => exact h
  | updateExpense eid p =>
      show ((match update_expense db eid p with
        | .ok (_, db') => db' | .error _ => db).budgets.map budgetKey).Nodup
      cases hu : update_expense db eid p with
      | error e => exact h
      | ok r =>
          cases r with
          | mk e db' =>
              rw [update_expense_ok_budgets db eid p e db' hu]
              exact h
  | deleteExpense eid =>
      show ((match delete_expense db eid with
        | .ok (_, db') => db' | .error _ => db).budgets.map budgetKey).Nodup
      cases hu : delete_expense db eid with
      | error e => exact h
      | ok r =>
          cases r with
          | mk msg db' =>
              rw [delete_expense_ok_budgets db eid msg db' hu]
              exact h
  | upsertBudget p =>
      show ((match create_budget db p with
        | .ok (_, db') => db' | .error _ => db).budgets.map budgetKey).Nodup
      cases hu : create_budget db p with
      | error e => exact h
      | ok r =>
          cases r with
          | mk b db' => exact create_budget_ok_key_nodup db p b db' h hu

theorem foldl_step_key_nodup (ops : List Op) (db : DB)
    (h : (db.budgets.map budgetKey).Nodup) :
    (((ops.foldl step db).budgets).map budgetKey).Nodup := by
  induction ops generalizing db with
  | nil => exact h
  | cons op rest ih => exact ih (step db op) (step_key_nodup db op h)

/-! ## Claim theorems: budgets -/

/-- C2: in every reachable storage state the budget rows have pairwise
distinct (category, month, year) keys — at most one row per triple —
and every operation of the system preserves this. -/
theorem budget_key_unique (db : DB) (h : Reachable db) :
    ((db.budgets.map budgetKey).Nodup) ∧
    ∀ op, (((step db op).budgets).map budgetKey).Nodup := by
  obtain ⟨ops, rfl⟩ := h
  have h1 : (((ops.foldl step initDB).budgets).map budgetKey).Nodup :=
    foldl_step_key_nodup ops initDB (by simp [initDB])
  exact ⟨h1, fun op => step_key_nodup _ op h1⟩

/-- Concrete instance of C2: the state reached by two budget upserts. -/
theorem budget_key_unique_witness :
    ((List.foldl step initDB [.upsertBudget ⟨"Food", 500, "June", 2024⟩,
      .upsertBudget ⟨"Rent", 900, "June", 2024⟩]).budgets.map budgetKey).Nodup :=
  (budget_key_unique _ ⟨[.upsertBudget ⟨"Food", 500, "June", 2024⟩,
    .upsertBudget ⟨"Rent", 900, "June", 2024⟩], rfl⟩).1

/-- C1 fails as stated: with only the budget row (Food, June, 2024)
stored, the upsert request (Food, 100, July, 2024) matches no stored
row on all three of (category, month, year), yet no new row is created
— the insert violates the unique constraint on `category`, the request
fails with the integrity error, and the state is unchanged. -/
theorem budget_insert_counterexample :
    ((⟨[], 1, [⟨1, "Food", 500, "June", 2024⟩], 2⟩ : DB).budgets.all
      (fun b => !budgetKeyMatch ⟨"Food", 100, "July", 2024⟩ b)) = true ∧
    create_budget ⟨[], 1, [⟨1, "Food", 500, "June", 2024⟩], 2⟩
      ⟨"Food", 100, "July", 2024⟩ = .error .integrityError ∧
    step ⟨[], 1, [⟨1, "Food", 500, "June", 2024⟩], 2⟩
      (.upsertBudget ⟨"Food", 100, "July", 2024⟩) =
      ⟨[], 1, [⟨1, "Food", 500, "June", 2024⟩], 2⟩ :=
  ⟨rfl, rfl, rfl⟩

/-- C1 (amended): when no stored budget row matches the request on all
three of (category, month, year), the upsert creates and returns a new
row with a fresh id carrying the given fields provided no stored row
shares the category at all; if some stored row has the same category
(necessarily under a different month or year), the insert instead fails
with the integrity error from the unique constraint on `category`. -/
theorem budget_insert_fresh (db : DB) (p : BudgetCreate)
    (hkey : ∀ b ∈ db.budgets, budgetKeyMatch p b = false)
    (hfresh : ∀ b ∈ db.budgets, b.id < db.nextBudgetId) :
    ((∀ b ∈ db.budgets, b.category ≠ p.category) →
      create_budget db p = .ok (newBudget db p, upsertInsertState db p) ∧
      newBudget db p = ⟨db.nextBudgetId, p.category, p.amount, p.month, p.year⟩ ∧
      (∀ b ∈ db.budgets, b.id ≠ (newBudget db p).id) ∧
      (upsertInsertState db p).budgets = db.budgets ++ [newBudget db p]) ∧
    ((∃ b ∈ db.budgets, b.category = p.category) →
      create_budget db p = .error .integrityError) := by
  have hfind : db.budgets.find? (budgetKeyMatch p) = none :=
    List.find?_eq_none.mpr (fun b hb => by simp [hkey b hb])
  constructor
  · intro hnc
    have hcat : db.budgets.any (fun b => b.category == p.category) = false :=
      List.any_eq_false.mpr (fun b hb => by simp [hnc b hb])
    exact ⟨create_budget_inserts db p hfind hcat, rfl,
      fun b hb => Nat.ne_of_lt (hfresh b hb), rfl⟩
  · rintro ⟨b, hb, hbc⟩
    have hcat : db.budgets.any (fun x => x.category == p.category) = true :=
      List.any_eq_true.mpr ⟨b, hb, by simp [hbc]⟩
    exact create_budget_conflict db p hfind hcat

/-- Concrete instance of the amended C1: inserting a Transport budget
next to a stored Food budget creates the new row; upserting Food for
July next to the stored Food/June row fails with the integrity error. -/
theorem budget_insert_fresh_witness :
    (create_budget ⟨[], 1, [⟨1, "Food", 500, "June", 2024⟩], 2⟩
        ⟨"Transport", 100, "June", 2024⟩ =
      .ok (newBudget ⟨[], 1, [⟨1, "Food", 500, "June", 2024⟩], 2⟩
          ⟨"Transport", 100, "June", 2024⟩,
        upsertInsertState ⟨[], 1, [⟨1, "Food", 500, "June", 2024⟩], 2⟩
          ⟨"Transport", 100, "June", 2024⟩)) ∧
    create_budget ⟨[], 1, [⟨1, "Food", 500, "June", 2024⟩], 2⟩
      ⟨"Food", 100, "July", 2024⟩ = .error .integrityError :=
  ⟨((budget_insert_fresh ⟨[], 1, [⟨1, "Food", 500, "June", 2024⟩], 2⟩
      ⟨"Transport", 100, "June", 2024⟩ (by decide) (by decide)).1 (by decide)).1,
   (budget_insert_fresh ⟨[], 1, [⟨1, "Food", 500, "June", 2024⟩], 2⟩
      ⟨"Food", 100, "July", 2024⟩ (by decide) (by decide)).2
      ⟨⟨1, "Food", 500, "June", 2024⟩, by decide, rfl⟩⟩

theorem upsert_establishes (db : DB) (c m : String) (y : Int) (a : ℚ)
    (hmy : ∀ b ∈ db.budgets, b.category = c → b.month = m ∧ b.year = y)
    (hkeys : (db.budgets.map budgetKey).Nodup) :
    ∃ b₁ db₁, create_budget db ⟨c, a, m, y⟩ = .ok (b₁, db₁) ∧
      db₁.budgets.find? (budgetKeyMatch ⟨c, a, m, y⟩) = some b₁ ∧
      (db₁.budgets.map budgetKey).Nodup ∧
      b₁.amount = a ∧ b₁.category = c ∧ b₁.month = m ∧ b₁.year = y := by
  cases hfind : db.budgets.find? (budgetKeyMatch ⟨c, a, m, y⟩) with
  | some b₀ =>
      have hb₀ : b₀.category = c ∧ b₀.month = m ∧ b₀.year = y := by
        have := List.find?_some hfind
        simpa [budgetKeyMatch, and_assoc] using this
      refine ⟨{ b₀ with amount := a }, upsertFoundState db ⟨c, a, m, y⟩,
        create_budget_found db ⟨c, a, m, y⟩ b₀ hfind, ?_, ?_, rfl,
        hb₀.1, hb₀.2.1, hb₀.2.2⟩
      · rw [upsertFoundState_budgets]
        rw [find?_updateFirst (budgetKeyMatch ⟨c, a, m, y⟩)
          (fun b => { b with amount := a }) (fun x hx => hx) db.budgets, hfind]
        rfl
      · rw [map_budgetKey_upsertFound]
        exact hkeys
  | none =>
      have hnc : ∀ b ∈ db.budgets, b.category ≠ c := by
        intro b hb hbc
        obtain ⟨hm2, hy2⟩ := hmy b hb hbc
        have hmatch : budgetKeyMatch ⟨c, a, m, y⟩ b = true := by
          simp [budgetKeyMatch, hbc, hm2, hy2]
        exact (List.find?_eq_none.mp hfind b hb) hmatch
      have hcat : db.budgets.any (fun b => b.category == c) = false :=
        List.any_eq_false.mpr (fun b hb => by simp [hnc b hb])
      refine ⟨newBudget db ⟨c, a, m, y⟩, upsertInsertState db ⟨c, a, m, y⟩,
        create_budget_inserts db ⟨c, a, m, y⟩ hfind hcat, ?_, ?_, rfl, rfl, rfl, rfl⟩
      · show (db.budgets ++ [newBudget db ⟨c, a, m, y⟩]).find? _ = _
        rw [List.find?_append, hfind]
        simp [budgetKeyMatch, newBudget]
      · exact map_budgetKey_upsertInsert db ⟨c, a, m, y⟩ hfind hkeys

/-- C3 fails as stated: the state holding only the budget row
(Food, 500, May, 2024) is reachable (one upsert from the fresh
database), and from it both upserts for the key (Food, June, 2024) —
first with amount 700, then with amount 800 — are rejected by the
unique constraint on `category`, each leaving the state unchanged, so
after the two upserts zero records exist for that key rather than
exactly one carrying the second amount. -/
theorem budget_upsert_twice_counterexample :
    step initDB (.upsertBudget ⟨"Food", 500, "May", 2024⟩) =
      ⟨[], 1, [⟨1, "Food", 500, "May", 2024⟩], 2⟩ ∧
    create_budget ⟨[], 1, [⟨1, "Food", 500, "May", 2024⟩], 2⟩
      ⟨"Food", 700, "June", 2024⟩ = .error .integrityError ∧
    step ⟨[], 1, [⟨1, "Food", 500, "May", 2024⟩], 2⟩
      (.upsertBudget ⟨"Food", 700, "June", 2024⟩) =
      ⟨[], 1, [⟨1, "Food", 500, "May", 2024⟩], 2⟩ ∧
    create_budget (step ⟨[], 1, [⟨1, "Food", 500, "May", 2024⟩], 2⟩
      (.upsertBudget ⟨"Food", 700, "June", 2024⟩)) ⟨"Food", 800, "June", 2024⟩ =
      .error .integrityError ∧
    (step (step ⟨[], 1, [⟨1, "Food", 500, "May", 2024⟩], 2⟩
      (.upsertBudget ⟨"Food", 700, "June", 2024⟩))
      (.upsertBudget ⟨"Food", 800, "June", 2024⟩)).budgets.countP
      (budgetKeyMatch ⟨"Food", 800, "June", 2024⟩) = 0 :=
  ⟨rfl, rfl, rfl, rfl, rfl⟩

/-- C3 (amended): provided the starting state's budget keys are
pairwise distinct and no stored row shares the requested category
under another month or year — which rules out the unique-constraint
rejection of the counterexample — upserting the same
(category, month, year) twice with two different amounts succeeds both
times and leaves exactly one row for that key; the surviving row is
the first result with only its amount overwritten by the second value
(id, category, month and year kept), and in general the found case of
the upsert returns the stored row changed in its amount field alone. -/
theorem budget_upsert_twice (db : DB) (c m : String) (y : Int) (a₁ a₂ : ℚ)
    (hmy : ∀ b ∈ db.budgets, b.category = c → b.month = m ∧ b.year = y)
    (hkeys : (db.budgets.map budgetKey).Nodup) :
    (∃ b₁ db₁ b₂ db₂,
      create_budget db ⟨c, a₁, m, y⟩ = .ok (b₁, db₁) ∧
      create_budget db₁ ⟨c, a₂, m, y⟩ = .ok (b₂, db₂) ∧
      db₂.budgets.countP (budgetKeyMatch ⟨c, a₂, m, y⟩) = 1 ∧
      db₂.budgets.find? (budgetKeyMatch ⟨c, a₂, m, y⟩) = some b₂ ∧
      b₂ = { b₁ with amount := a₂ }) ∧
    (∀ p b₀, db.budgets.find? (budgetKeyMatch p) = some b₀ →
      create_budget db p = .ok ({ b₀ with amount := p.amount }, upsertFoundState db p)) := by
  constructor
  · obtain ⟨b₁, db₁, h1, hfind1, hnodup1, ham1, hc1, hm1, hy1⟩ :=
      upsert_establishes db c m y a₁ hmy hkeys
    have hfind1b : db₁.budgets.find? (budgetKeyMatch ⟨c, a₂, m, y⟩) = some b₁ := hfind1
    have h2 := create_budget_found db₁ ⟨c, a₂, m, y⟩ b₁ hfind1b
    have hfind2 : (upsertFoundState db₁ ⟨c, a₂, m, y⟩).budgets.find?
        (budgetKeyMatch ⟨c, a₂, m, y⟩) = some { b₁ with amount := a₂ } := by
      rw [upsertFoundState_budgets]
      rw [find?_updateFirst (budgetKeyMatch ⟨c, a₂, m, y⟩)
        (fun b => { b with amount := a₂ }) (fun x hx => hx) db₁.budgets, hfind1b]
      rfl
    have hnodup2 : ((upsertFoundState db₁ ⟨c, a₂, m, y⟩).budgets.map budgetKey).Nodup := by
      rw [map_budgetKey_upsertFound]
      exact hnodup1
    refine ⟨b₁, db₁, { b₁ with amount := a₂ }, upsertFoundState db₁ ⟨c, a₂, m, y⟩,
      h1, h2, ?_, hfind2, rfl⟩
    have hle : (upsertFoundState db₁ ⟨c, a₂, m, y⟩).budgets.countP
        (budgetKeyMatch ⟨c, a₂, m, y⟩) ≤ 1 :=
      countP_le_one_of_nodup_map budgetKey (budgetKeyMatch ⟨c, a₂, m, y⟩)
        (fun x z hx hz => by
          rw [(budgetKeyMatch_iff _ x).mp hx, (budgetKeyMatch_iff _ z).mp hz])
        _ hnodup2
    have hpos : 0 < (upsertFoundState db₁ ⟨c, a₂, m, y⟩).budgets.countP
        (budgetKeyMatch ⟨c, a₂, m, y⟩) :=
      List.countP_pos_iff.mpr ⟨{ b₁ with amount := a₂ },
        List.mem_of_find?_eq_some hfind2, List.find?_some hfind2⟩
    omega
  · intro p b₀ h
    exact create_budget_found db p b₀ h

/-- Concrete instance of C3: upserting (Food, June, 2024) with 500 and
then 800 onto the empty store keeps one row carrying 800. -/
theorem budget_upsert_twice_witness :
    ∃ b₁ db₁ b₂ db₂,
      create_budget initDB ⟨"Food", 500, "June", 2024⟩ = .ok (b₁, db₁) ∧
      create_budget db₁ ⟨"Food", 800, "June", 2024⟩ = .ok (b₂, db₂) ∧
      db₂.budgets.countP (budgetKeyMatch ⟨"Food", 800, "June", 2024⟩) = 1 ∧
      db₂.budgets.find? (budgetKeyMatch ⟨"Food", 800, "June", 2024⟩) = some b₂ ∧
      b₂ = { b₁ with amount := 800 } :=
  (budget_upsert_twice initDB "Food" "June" 2024 500 800
    (by decide) (by decide)).1

end BudgetTrack
